import Mathlib

/-!
Shallow embedding of `src/Touchdesigner/presence_detection.py`
(class `PresenceAntiPeekingAlgo`) from the BeeThermal-Sensor repository.

Real-valued samples, averages and thresholds are modelled over `ℚ`.
The external windowed-FFT helper (`helpers.fft_spectrum`, an external
collaborator per the specification) is modelled as an abstract function
argument that may fail; the code only uses the element-wise absolute
value of its result, so the complex magnitudes are represented by the
absolute values of rational entries.  The Blackman-Harris window is
produced by an external `scipy` call; it reaches the algorithm only as
an opaque vector handed to the FFT helper, so the constructor takes the
window generator as a function argument.

Python raises exceptions while mutating `self` in place, so the update
is embedded as a function into `Except`, where an error value carries
the state of the object at the moment the exception is raised.
-/

/-- Errors that can surface from a per-frame update: a failure reported
by the external FFT helper, a `ValueError` from `np.max` applied to an
empty slice, and an `AttributeError` from reading a running average
that was never initialized. -/
inductive PresenceError where
  | spectralTransformFailure : PresenceError
  | emptySliceMax : PresenceError
  | attributeError : PresenceError
deriving DecidableEq

/-- State of a `PresenceAntiPeekingAlgo` object.  The running averages
do not exist as attributes before the first processed frame, hence the
`Option`. -/
structure PresenceAntiPeekingAlgo where
  num_samples_per_chirp : Int
  num_chirps_per_frame : Int
  detect_start_sample : Int
  detect_end_sample : Int
  peek_start_sample : Int
  peek_end_sample : Int
  threshold_presence : ℚ
  threshold_peeking : ℚ
  alpha_slow : ℚ
  alpha_med : ℚ
  alpha_fast : ℚ
  presence_status : Bool
  peeking_status : Bool
  first_run : Bool
  range_window : List ℚ
  slow_avg : Option (List ℚ)
  fast_avg : Option (List ℚ)
  slow_peek_avg : Option (List ℚ)
deriving DecidableEq

/-- Type of the external windowed-FFT helper: takes the frame matrix and
the range window, returns one spectrum row per chirp row or fails. -/
def FFTFun : Type :=
  List (List ℚ) → List ℚ → Except PresenceError (List (List ℚ))

/-- Embedding of `PresenceAntiPeekingAlgo.__init__`.  Python's floor
division `//` is `Int.fdiv`.  The decimal constants of the source are
written as exact rationals. -/
def initAlgo (rangeWindow : Int → List ℚ)
    (num_samples_per_chirp num_chirps_per_frame : Int) :
    PresenceAntiPeekingAlgo :=
  { num_samples_per_chirp := num_samples_per_chirp
    num_chirps_per_frame := num_chirps_per_frame
    detect_start_sample := Int.fdiv num_samples_per_chirp 8
    detect_end_sample := Int.fdiv num_samples_per_chirp 2
    peek_start_sample := Int.fdiv num_samples_per_chirp 2
    peek_end_sample := num_samples_per_chirp
    threshold_presence := 7/10000
    threshold_peeking := 6/10000
    alpha_slow := 1/1000
    alpha_med := 5/100
    alpha_fast := 6/10
    presence_status := false
    peeking_status := false
    first_run := true
    range_window := rangeWindow num_samples_per_chirp
    slow_avg := none
    fast_avg := none
    slow_peek_avg := none }

/-- Element-wise sum of two vectors (`numpy` `+` on equal-length rows). -/
def addList (xs ys : List ℚ) : List ℚ := List.zipWith (· + ·) xs ys

/-- Element-wise difference of two vectors (`numpy` `-`). -/
def subList (xs ys : List ℚ) : List ℚ := List.zipWith (· - ·) xs ys

/-- Column-wise sum of the rows of a matrix (`sum(axis=0)`). -/
def colSum : List (List ℚ) → List ℚ
  | [] => []
  | r :: rs => rs.foldl addList r

/-- Division of a vector by a scalar (`np.divide`). -/
def divScalar (xs : List ℚ) (c : Int) : List ℚ := xs.map (fun x => x / (c : ℚ))

/-- Clamping of one Python slice endpoint to `[0, len]`, with negative
indices counted from the end. -/
def sliceBound (len : Nat) (i : Int) : Nat :=
  if i < 0 then ((len : Int) + i).toNat else min i.toNat len

/-- Python slice `xs[a:b]` (step 1). -/
def pySlice (xs : List ℚ) (a b : Int) : List ℚ :=
  (xs.take (sliceBound xs.length b)).drop (sliceBound xs.length a)

/-- `np.max` over a vector: a value for a nonempty vector, `none` for
the empty one (where `numpy` raises `ValueError`). -/
def npMax : List ℚ → Option ℚ
  | [] => none
  | x :: xs => some (xs.foldl max x)

/-- One exponential-moving-average assignment of the source:
`avg * (1 - coef) + fft_norm * coef`, element-wise. -/
def emaStep (coef : ℚ) (avg fft_norm : List ℚ) : List ℚ :=
  addList (avg.map (fun x => x * (1 - coef))) (fft_norm.map (fun x => x * coef))

/-- Frame-normalized magnitude spectrum: `abs` of the FFT rows, summed
column-wise, divided by `num_chirps_per_frame` (source lines computing
`fft_spec_abs` and `fft_norm`). -/
def fftNormOf (s : PresenceAntiPeekingAlgo) (range_fft : List (List ℚ)) : List ℚ :=
  divScalar (colSum (range_fft.map (fun row => row.map (fun x => |x|)))) s.num_chirps_per_frame

/-- First-frame initialization block (`if self.first_run:`). -/
def initStep (s : PresenceAntiPeekingAlgo) (fft_norm : List ℚ) : PresenceAntiPeekingAlgo :=
  if s.first_run then
    { s with slow_avg := some fft_norm, fast_avg := some fft_norm,
             slow_peek_avg := some fft_norm, first_run := false }
  else s

/-- Body of the update after `fft_norm` is available and the three
running-average attributes have been read: presence averaging and
threshold, then peeking averaging and threshold.  Mirrors the source
statement by statement; each error carries the in-place-mutated state
at the moment `np.max` raises on an empty slice. -/
def presenceUpdate (s : PresenceAntiPeekingAlgo)
    (slowA fastA peekA fft_norm : List ℚ) :
    Except (PresenceError × PresenceAntiPeekingAlgo)
      (Bool × Bool × PresenceAntiPeekingAlgo) :=
  let alpha_used := if s.presence_status then s.alpha_slow else s.alpha_med
  let slow_avg2 := emaStep alpha_used slowA fft_norm
  let fast_avg2 := emaStep s.alpha_fast fastA fft_norm
  let data := subList fast_avg2 slow_avg2
  match npMax (pySlice data s.detect_start_sample s.detect_end_sample) with
  | none =>
      .error (.emptySliceMax,
        { s with slow_avg := some slow_avg2, fast_avg := some fast_avg2 })
  | some m =>
      let presence_status2 := decide (m > s.threshold_presence)
      let alpha_used2 := if s.peeking_status then s.alpha_slow else s.alpha_med
      let slow_peek_avg2 := emaStep alpha_used2 peekA fft_norm
      let data_peek := subList fast_avg2 slow_peek_avg2
      match npMax (pySlice data_peek s.peek_start_sample s.peek_end_sample) with
      | none =>
          .error (.emptySliceMax,
            { s with slow_avg := some slow_avg2, fast_avg := some fast_avg2,
                     presence_status := presence_status2,
                     slow_peek_avg := some slow_peek_avg2 })
      | some mp =>
          let peeking_status2 := decide (mp > s.threshold_peeking)
          .ok (presence_status2, peeking_status2,
            { s with slow_avg := some slow_avg2, fast_avg := some fast_avg2,
                     presence_status := presence_status2,
                     slow_peek_avg := some slow_peek_avg2,
                     peeking_status := peeking_status2 })

/-- Embedding of `PresenceAntiPeekingAlgo.presence`.  The external FFT
helper is a function argument; a failure it reports is surfaced with
the object state untouched, because the source calls it before any
assignment to `self`. -/
def presence (fft : FFTFun) (s : PresenceAntiPeekingAlgo)
    (mat : List (List ℚ)) :
    Except (PresenceError × PresenceAntiPeekingAlgo)
      (Bool × Bool × PresenceAntiPeekingAlgo) :=
  match fft mat s.range_window with
  | .error e => .error (e, s)
  | .ok range_fft =>
      let fft_norm := fftNormOf s range_fft
      let s1 := initStep s fft_norm
      match s1.slow_avg, s1.fast_avg, s1.slow_peek_avg with
      | some slowA, some fastA, some peekA =>
          presenceUpdate s1 slowA fastA peekA fft_norm
      | _, _, _ => .error (.attributeError, s1)

/-- Observables of the peeking half of one update: the peeking boolean
and the committed `slow_peek_avg`, or `none` when the update fails. -/
def peekObs :
    Except (PresenceError × PresenceAntiPeekingAlgo)
      (Bool × Bool × PresenceAntiPeekingAlgo) →
    Option (Bool × Option (List ℚ))
  | .ok (_, k, t) => some (k, t.slow_peek_avg)
  | .error _ => none

/-- Constant all-ones stand-in for the externally computed window
vector; the algorithm itself never reads its entries. -/
def oneWindow (n : Int) : List ℚ := List.replicate n.toNat 1

/-- Shape-preserving stand-in for the FFT helper, used for concrete
runs: returns the input rows unchanged and never fails. -/
def fftId : FFTFun := fun mat _ => .ok mat

/-! ### Basic lemmas about the embedded operations -/

theorem initStep_presence_status (s : PresenceAntiPeekingAlgo) (fn : List ℚ) :
    (initStep s fn).presence_status = s.presence_status := by
  unfold initStep; split <;> rfl

theorem initStep_peeking_status (s : PresenceAntiPeekingAlgo) (fn : List ℚ) :
    (initStep s fn).peeking_status = s.peeking_status := by
  unfold initStep; split <;> rfl

theorem initStep_alpha_slow (s : PresenceAntiPeekingAlgo) (fn : List ℚ) :
    (initStep s fn).alpha_slow = s.alpha_slow := by
  unfold initStep; split <;> rfl

theorem initStep_alpha_med (s : PresenceAntiPeekingAlgo) (fn : List ℚ) :
    (initStep s fn).alpha_med = s.alpha_med := by
  unfold initStep; split <;> rfl

theorem initStep_alpha_fast (s : PresenceAntiPeekingAlgo) (fn : List ℚ) :
    (initStep s fn).alpha_fast = s.alpha_fast := by
  unfold initStep; split <;> rfl

theorem initStep_threshold_presence (s : PresenceAntiPeekingAlgo) (fn : List ℚ) :
    (initStep s fn).threshold_presence = s.threshold_presence := by
  unfold initStep; split <;> rfl

theorem initStep_threshold_peeking (s : PresenceAntiPeekingAlgo) (fn : List ℚ) :
    (initStep s fn).threshold_peeking = s.threshold_peeking := by
  unfold initStep; split <;> rfl

theorem initStep_detect_start (s : PresenceAntiPeekingAlgo) (fn : List ℚ) :
    (initStep s fn).detect_start_sample = s.detect_start_sample := by
  unfold initStep; split <;> rfl

theorem initStep_detect_end (s : PresenceAntiPeekingAlgo) (fn : List ℚ) :
    (initStep s fn).detect_end_sample = s.detect_end_sample := by
  unfold initStep; split <;> rfl

theorem initStep_peek_start (s : PresenceAntiPeekingAlgo) (fn : List ℚ) :
    (initStep s fn).peek_start_sample = s.peek_start_sample := by
  unfold initStep; split <;> rfl

theorem initStep_peek_end (s : PresenceAntiPeekingAlgo) (fn : List ℚ) :
    (initStep s fn).peek_end_sample = s.peek_end_sample := by
  unfold initStep; split <;> rfl

theorem initStep_range_window (s : PresenceAntiPeekingAlgo) (fn : List ℚ) :
    (initStep s fn).range_window = s.range_window := by
  unfold initStep; split <;> rfl

theorem initStep_of_first_run (s : PresenceAntiPeekingAlgo) (fn : List ℚ)
    (h : s.first_run = true) :
    initStep s fn =
      { s with slow_avg := some fn, fast_avg := some fn,
               slow_peek_avg := some fn, first_run := false } := by
  unfold initStep; rw [h]; rfl

theorem initStep_of_not_first_run (s : PresenceAntiPeekingAlgo) (fn : List ℚ)
    (h : s.first_run = false) : initStep s fn = s := by
  unfold initStep; rw [h]; rfl

theorem zipWith_replicate_same {α β γ : Type} (f : α → β → γ) (a : α) (b : β) :
    ∀ n, List.zipWith f (List.replicate n a) (List.replicate n b) =
      List.replicate n (f a b) := by
  intro n
  induction n with
  | zero => rfl
  | succ k ih => simp [List.replicate_succ, ih]

theorem emaStep_self (c : ℚ) (xs : List ℚ) : emaStep c xs xs = xs := by
  induction xs with
  | nil => rfl
  | cons x t ih =>
      simp only [emaStep, addList, List.map_cons, List.zipWith_cons_cons] at *
      refine congrArg₂ _ ?_ ih
      ring

theorem npMax_eq_none_iff (xs : List ℚ) : npMax xs = none ↔ xs = [] := by
  cases xs <;> simp [npMax]

theorem npMax_replicate_succ (k : Nat) (q : ℚ) :
    npMax (List.replicate (k + 1) q) = some q := by
  rw [List.replicate_succ]
  simp only [npMax]
  refine congrArg _ ?_
  induction k with
  | zero => rfl
  | succ j ih => rw [List.replicate_succ, List.foldl_cons, max_self]; exact ih

theorem length_emaStep (c : ℚ) (a f : List ℚ) :
    (emaStep c a f).length = min a.length f.length := by
  simp [emaStep, addList]

theorem length_subList (a b : List ℚ) :
    (subList a b).length = min a.length b.length := by
  simp [subList]

theorem pySlice_length_eq (xs ys : List ℚ) (a b : Int)
    (h : xs.length = ys.length) :
    (pySlice xs a b).length = (pySlice ys a b).length := by
  simp [pySlice, h]

theorem pySlice_same (xs : List ℚ) (a : Int) : pySlice xs a a = [] := by
  apply List.drop_eq_nil_of_le
  calc (xs.take (sliceBound xs.length a)).length
      ≤ sliceBound xs.length a := by simp
    _ = sliceBound xs.length a := rfl

theorem emaStep_eq_zipWith (coef : ℚ) (a f : List ℚ) :
    emaStep coef a f = List.zipWith (fun x y => x * (1 - coef) + y * coef) a f := by
  induction a generalizing f with
  | nil => rfl
  | cons x t ih =>
      cases f with
      | nil => rfl
      | cons y u => simp only [emaStep, addList, List.map_cons,
          List.zipWith_cons_cons, List.zipWith] at *; exact congrArg _ (ih u)

/-! ### Inversion of a successful update -/

theorem presence_fft_ok (fft : FFTFun) (s : PresenceAntiPeekingAlgo)
    (mat R : List (List ℚ)) (hf : fft mat s.range_window = .ok R) :
    presence fft s mat =
      match (initStep s (fftNormOf s R)).slow_avg,
            (initStep s (fftNormOf s R)).fast_avg,
            (initStep s (fftNormOf s R)).slow_peek_avg with
      | some slowA, some fastA, some peekA =>
          presenceUpdate (initStep s (fftNormOf s R)) slowA fastA peekA
            (fftNormOf s R)
      | _, _, _ => .error (.attributeError, initStep s (fftNormOf s R)) := by
  unfold presence
  rw [hf]

theorem presence_fft_error (fft : FFTFun) (s : PresenceAntiPeekingAlgo)
    (mat : List (List ℚ)) (e : PresenceError)
    (hf : fft mat s.range_window = .error e) :
    presence fft s mat = .error (e, s) := by
  unfold presence
  rw [hf]

theorem presenceUpdate_ok (s : PresenceAntiPeekingAlgo)
    (slowA fastA peekA fn : List ℚ) (p k : Bool)
    (s2 : PresenceAntiPeekingAlgo)
    (h : presenceUpdate s slowA fastA peekA fn = .ok (p, k, s2)) :
    ∃ m mp,
      npMax (pySlice (subList (emaStep s.alpha_fast fastA fn)
          (emaStep (if s.presence_status then s.alpha_slow else s.alpha_med) slowA fn))
        s.detect_start_sample s.detect_end_sample) = some m ∧
      p = decide (m > s.threshold_presence) ∧
      npMax (pySlice (subList (emaStep s.alpha_fast fastA fn)
          (emaStep (if s.peeking_status then s.alpha_slow else s.alpha_med) peekA fn))
        s.peek_start_sample s.peek_end_sample) = some mp ∧
      k = decide (mp > s.threshold_peeking) ∧
      s2 = { s with
        slow_avg := some (emaStep (if s.presence_status then s.alpha_slow else s.alpha_med) slowA fn),
        fast_avg := some (emaStep s.alpha_fast fastA fn),
        presence_status := p,
        slow_peek_avg := some (emaStep (if s.peeking_status then s.alpha_slow else s.alpha_med) peekA fn),
        peeking_status := k } := by
  simp only [presenceUpdate] at h
  split at h
  · simp at h
  · rename_i m hm
    split at h
    · simp at h
    · rename_i mp hmp
      simp only [Except.ok.injEq, Prod.mk.injEq] at h
      obtain ⟨hp, hk, hs⟩ := h
      refine ⟨m, mp, hm, hp.symm, hmp, hk.symm, ?_⟩
      rw [← hs, ← hp, ← hk]

theorem initStep_first_run (s : PresenceAntiPeekingAlgo) (fn : List ℚ) :
    (initStep s fn).first_run = false := by
  unfold initStep
  split
  · rfl
  · rename_i h
    simp only [Bool.not_eq_true] at h
    exact h

theorem initStep_num_samples (s : PresenceAntiPeekingAlgo) (fn : List ℚ) :
    (initStep s fn).num_samples_per_chirp = s.num_samples_per_chirp := by
  unfold initStep; split <;> rfl

theorem initStep_num_chirps (s : PresenceAntiPeekingAlgo) (fn : List ℚ) :
    (initStep s fn).num_chirps_per_frame = s.num_chirps_per_frame := by
  unfold initStep; split <;> rfl

theorem presence_ok (fft : FFTFun) (s : PresenceAntiPeekingAlgo)
    (mat R : List (List ℚ)) (p k : Bool) (s2 : PresenceAntiPeekingAlgo)
    (hf : fft mat s.range_window = .ok R)
    (hok : presence fft s mat = .ok (p, k, s2)) :
    ∃ slowA fastA peekA m mp,
      (initStep s (fftNormOf s R)).slow_avg = some slowA ∧
      (initStep s (fftNormOf s R)).fast_avg = some fastA ∧
      (initStep s (fftNormOf s R)).slow_peek_avg = some peekA ∧
      npMax (pySlice (subList (emaStep s.alpha_fast fastA (fftNormOf s R))
          (emaStep (if s.presence_status then s.alpha_slow else s.alpha_med)
            slowA (fftNormOf s R)))
        s.detect_start_sample s.detect_end_sample) = some m ∧
      p = decide (m > s.threshold_presence) ∧
      npMax (pySlice (subList (emaStep s.alpha_fast fastA (fftNormOf s R))
          (emaStep (if s.peeking_status then s.alpha_slow else s.alpha_med)
            peekA (fftNormOf s R)))
        s.peek_start_sample s.peek_end_sample) = some mp ∧
      k = decide (mp > s.threshold_peeking) ∧
      s2.slow_avg = some (emaStep (if s.presence_status then s.alpha_slow else s.alpha_med) slowA (fftNormOf s R)) ∧
      s2.fast_avg = some (emaStep s.alpha_fast fastA (fftNormOf s R)) ∧
      s2.slow_peek_avg = some (emaStep (if s.peeking_status then s.alpha_slow else s.alpha_med) peekA (fftNormOf s R)) ∧
      s2.presence_status = p ∧
      s2.peeking_status = k ∧
      s2.first_run = false ∧
      s2.detect_start_sample = s.detect_start_sample ∧
      s2.detect_end_sample = s.detect_end_sample ∧
      s2.peek_start_sample = s.peek_start_sample ∧
      s2.peek_end_sample = s.peek_end_sample ∧
      s2.threshold_presence = s.threshold_presence ∧
      s2.threshold_peeking = s.threshold_peeking := by
  rw [presence_fft_ok fft s mat R hf] at hok
  split at hok
  · rename_i slowA fastA peekA h1 h2 h3
    obtain ⟨m, mp, hm, hp, hmp, hk, hs2⟩ :=
      presenceUpdate_ok _ _ _ _ _ _ _ _ hok
    simp only [initStep_alpha_fast, initStep_alpha_slow, initStep_alpha_med,
      initStep_presence_status, initStep_peeking_status, initStep_detect_start,
      initStep_detect_end, initStep_peek_start, initStep_peek_end,
      initStep_threshold_presence, initStep_threshold_peeking,
      initStep_first_run, initStep_num_samples, initStep_num_chirps,
      initStep_range_window] at hm hp hmp hk hs2
    subst hs2
    exact ⟨slowA, fastA, peekA, m, mp, h1, h2, h3, hm, hp, hmp, hk,
      rfl, rfl, rfl, rfl, rfl, rfl, rfl, rfl, rfl, rfl, rfl, rfl⟩
  · rename_i hno
    simp at hok

/-! ### Claim C1 -/

/-- C1 (amended): the per-frame update performs no shape validation of
its own; its result depends on the input matrix only through the call
to the external FFT helper, so any matrix for which the helper returns
the same spectrum — whatever its row or column count — is processed
identically, and no `InvalidFrameShape` error exists in the code. -/
theorem C1_no_shape_validation (fft1 fft2 : FFTFun)
    (s : PresenceAntiPeekingAlgo) (mat1 mat2 : List (List ℚ))
    (h : fft1 mat1 s.range_window = fft2 mat2 s.range_window) :
    presence fft1 s mat1 = presence fft2 s mat2 := by
  unfold presence
  rw [h]

/-- C1 witness: two matrices of different shapes on which a concrete
helper returns the same spectrum are processed identically. -/
theorem C1_no_shape_validation_witness :
    (fftId [[1, 1]] (initAlgo oneWindow 2 2).range_window =
      (fun _ _ => .ok [[1, 1]] : FFTFun) [[1], [1], [1]]
        (initAlgo oneWindow 2 2).range_window) ∧
    presence fftId (initAlgo oneWindow 2 2) [[1, 1]] =
      presence (fun _ _ => .ok [[1, 1]]) (initAlgo oneWindow 2 2)
        [[1], [1], [1]] :=
  ⟨rfl, C1_no_shape_validation fftId (fun _ _ => .ok [[1, 1]])
    (initAlgo oneWindow 2 2) [[1, 1]] [[1], [1], [1]] rfl⟩

/-- C1 counterexample: a frame with 1 row fed to a detector configured
for 2 chirps per frame is not rejected — the update returns normally
and the running averages are all mutated (from unset to set). -/
theorem C1_counterexample :
    ([[0, 0, 0, 0, 0, 0, 1, 0]] : List (List ℚ)).length = 1 ∧
    (initAlgo oneWindow 8 2).num_chirps_per_frame = 2 ∧
    presence fftId (initAlgo oneWindow 8 2) [[0, 0, 0, 0, 0, 0, 1, 0]] =
      .ok (false, false,
        { initAlgo oneWindow 8 2 with
            first_run := false,
            slow_avg := some [0, 0, 0, 0, 0, 0, 1/2, 0],
            fast_avg := some [0, 0, 0, 0, 0, 0, 1/2, 0],
            slow_peek_avg := some [0, 0, 0, 0, 0, 0, 1/2, 0] }) ∧
    some ([0, 0, 0, 0, 0, 0, 1/2, 0] : List ℚ) ≠
      (initAlgo oneWindow 8 2).slow_avg := by
  refine ⟨rfl, rfl, ?_, by simp [initAlgo]⟩
  simp only [presence, fftId, initAlgo, fftNormOf, colSum, divScalar, addList,
    subList, initStep, presenceUpdate, emaStep, pySlice, sliceBound, npMax,
    oneWindow]
  norm_num [Int.fdiv]
  simp
  norm_num

/-! ### Claim C2 -/

/-- C2 (amended): construction performs no argument validation of its
own and no `InvalidConfiguration` error exists in the code: for any
non-negative `samples_per_chirp` — zero, a non-positive value, included
— and any integer `chirps_per_frame`, a Detector is created,
uninitialized, with both status flags false and ordered window
boundaries derived by floor division.  (For negative
`samples_per_chirp` the external `scipy` window call raises its own
`ValueError`; that failure belongs to the external collaborator, not to
this constructor, which is why the window generator is a parameter
here.) -/
theorem C2_no_validation (w : Int → List ℚ) (n c : Int) (hn : 0 ≤ n) :
    (initAlgo w n c).first_run = true ∧
    (initAlgo w n c).presence_status = false ∧
    (initAlgo w n c).peeking_status = false ∧
    (initAlgo w n c).slow_avg = none ∧
    (initAlgo w n c).num_samples_per_chirp = n ∧
    (initAlgo w n c).num_chirps_per_frame = c ∧
    0 ≤ (initAlgo w n c).detect_start_sample ∧
    (initAlgo w n c).detect_start_sample ≤ (initAlgo w n c).detect_end_sample ∧
    (initAlgo w n c).detect_end_sample = (initAlgo w n c).peek_start_sample ∧
    (initAlgo w n c).peek_start_sample ≤ (initAlgo w n c).peek_end_sample := by
  refine ⟨rfl, rfl, rfl, rfl, rfl, rfl, ?_, ?_, rfl, ?_⟩ <;>
    simp only [initAlgo, Int.fdiv_eq_ediv _ (by omega : (0:Int) ≤ 8),
      Int.fdiv_eq_ediv _ (by omega : (0:Int) ≤ 2)] <;> omega

/-- C2 witness: the amended claim instantiated at the non-positive
configuration `(0, 0)`. -/
theorem C2_no_validation_witness :
    (0 : Int) ≤ 0 ∧ (initAlgo oneWindow 0 0).first_run = true :=
  ⟨le_refl 0, (C2_no_validation oneWindow 0 0 (le_refl 0)).1⟩

/-- C2 counterexample: with `samples_per_chirp = 0` and
`chirps_per_frame = 0` (both non-positive) a Detector is created — the
constructor returns this fully formed state instead of failing. -/
theorem C2_counterexample :
    initAlgo oneWindow 0 0 =
      { num_samples_per_chirp := 0, num_chirps_per_frame := 0,
        detect_start_sample := 0, detect_end_sample := 0,
        peek_start_sample := 0, peek_end_sample := 0,
        threshold_presence := 7/10000, threshold_peeking := 6/10000,
        alpha_slow := 1/1000, alpha_med := 5/100, alpha_fast := 6/10,
        presence_status := false, peeking_status := false,
        first_run := true, range_window := [],
        slow_avg := none, fast_avg := none, slow_peek_avg := none } := rfl

/-! ### Claim C8 -/

/-- C8 (amended): the update is atomic only with respect to failures of
the FFT helper: such a failure is surfaced with the state exactly as it
was before the call, because the helper runs before any assignment to
the object.  (A failure later in the pipeline — the empty-window
maximum — surfaces after averages and the first-run flag were already
mutated in place; see the counterexample.) -/
theorem C8_fft_failure_atomic (fft : FFTFun) (s : PresenceAntiPeekingAlgo)
    (mat : List (List ℚ)) (e : PresenceError)
    (hf : fft mat s.range_window = .error e) :
    presence fft s mat = .error (e, s) :=
  presence_fft_error fft s mat e hf

/-- C8 witness: a helper that always fails leaves a concrete detector
unchanged. -/
theorem C8_fft_failure_atomic_witness :
    ((fun _ _ => .error .spectralTransformFailure : FFTFun) [[1]]
        (initAlgo oneWindow 1 1).range_window =
      .error .spectralTransformFailure) ∧
    presence (fun _ _ => .error .spectralTransformFailure)
        (initAlgo oneWindow 1 1) [[1]] =
      .error (.spectralTransformFailure, initAlgo oneWindow 1 1) :=
  ⟨rfl, C8_fft_failure_atomic (fun _ _ => .error .spectralTransformFailure)
    (initAlgo oneWindow 1 1) [[1]] .spectralTransformFailure rfl⟩

/-- C8 counterexample: on a detector with `samples_per_chirp = 1` the
first update fails at the presence-threshold step (empty detect
window), yet the error state already carries mutated running averages —
the step 1-5 pipeline is not atomic. -/
theorem C8_counterexample :
    presence fftId (initAlgo oneWindow 1 1) [[5]] =
      .error (.emptySliceMax,
        { initAlgo oneWindow 1 1 with
            first_run := false,
            slow_avg := some [5], fast_avg := some [5],
            slow_peek_avg := some [5] }) ∧
    some ([5] : List ℚ) ≠ (initAlgo oneWindow 1 1).slow_avg := by
  refine ⟨?_, by simp [initAlgo]⟩
  simp only [presence, fftId, initAlgo, fftNormOf, colSum, divScalar, addList,
    subList, initStep, presenceUpdate, emaStep, pySlice, sliceBound, npMax,
    oneWindow]
  norm_num [Int.fdiv]

/-! ### Claim C9 -/

theorem presenceUpdate_empty_detect (s : PresenceAntiPeekingAlgo)
    (slowA fastA peekA fn : List ℚ)
    (hs : s.detect_start_sample = s.detect_end_sample) :
    presenceUpdate s slowA fastA peekA fn =
      .error (.emptySliceMax,
        { s with
            slow_avg := some (emaStep
              (if s.presence_status then s.alpha_slow else s.alpha_med) slowA fn),
            fast_avg := some (emaStep s.alpha_fast fastA fn) }) := by
  simp only [presenceUpdate, hs, pySlice_same, npMax]

/-- C9: with `samples_per_chirp = 1` the detect window collapses
(`1 // 8 = 0 = 1 // 2`), and any state whose detect boundaries are
equal makes every update fail at the presence-threshold maximum (empty
slice) — it can never return a result; moreover the failure state keeps
the collapsed boundaries, so every later call fails the same way. -/
theorem C9_empty_detect_window (w : Int → List ℚ) (c : Int) (fft : FFTFun)
    (mat : List (List ℚ)) (s : PresenceAntiPeekingAlgo)
    (hs : s.detect_start_sample = s.detect_end_sample) :
    ((initAlgo w 1 c).detect_start_sample = 0 ∧
     (initAlgo w 1 c).detect_end_sample = 0) ∧
    (presence fft s mat).isOk = false ∧
    (∀ e t, presence fft s mat = .error (e, t) →
      t.detect_start_sample = s.detect_start_sample ∧
      t.detect_end_sample = s.detect_end_sample) := by
  refine ⟨⟨rfl, rfl⟩, ?_⟩
  rcases hf : fft mat s.range_window with e | R
  · rw [presence_fft_error fft s mat e hf]
    refine ⟨rfl, ?_⟩
    intro e' t' h
    rw [Except.error.injEq, Prod.mk.injEq] at h
    rw [← h.2]
    exact ⟨rfl, rfl⟩
  · rw [presence_fft_ok fft s mat R hf]
    split
    · rename_i slowA fastA peekA h1 h2 h3
      rw [presenceUpdate_empty_detect _ _ _ _ _
        (by rw [initStep_detect_start, initStep_detect_end, hs])]
      refine ⟨rfl, ?_⟩
      intro e' t' h
      rw [Except.error.injEq, Prod.mk.injEq] at h
      rw [← h.2]
      exact ⟨initStep_detect_start s _, initStep_detect_end s _⟩
    · refine ⟨rfl, ?_⟩
      intro e' t' h
      rw [Except.error.injEq, Prod.mk.injEq] at h
      rw [← h.2]
      exact ⟨initStep_detect_start s _, initStep_detect_end s _⟩

/-- C9 witness: the detector constructed with `samples_per_chirp = 1`
has collapsed detect boundaries and its first update fails. -/
theorem C9_empty_detect_window_witness :
    (initAlgo oneWindow 1 1).detect_start_sample =
      (initAlgo oneWindow 1 1).detect_end_sample ∧
    (presence fftId (initAlgo oneWindow 1 1) [[5]]).isOk = false :=
  ⟨by decide,
    (C9_empty_detect_window oneWindow 1 fftId [[5]]
      (initAlgo oneWindow 1 1) (by decide)).2.1⟩

/-! ### Shared concrete runs for witnesses -/

/-- Committed state of the concrete run used by several witnesses. -/
def out8 : PresenceAntiPeekingAlgo :=
  { initAlgo oneWindow 8 2 with
      first_run := false,
      slow_avg := some [0, 0, 0, 0, 0, 0, 1/2, 0],
      fast_avg := some [0, 0, 0, 0, 0, 0, 1/2, 0],
      slow_peek_avg := some [0, 0, 0, 0, 0, 0, 1/2, 0] }

theorem presence_run8 :
    presence fftId (initAlgo oneWindow 8 2) [[0, 0, 0, 0, 0, 0, 1, 0]] =
      .ok (false, false, out8) := by
  simp only [presence, fftId, initAlgo, out8, fftNormOf, colSum, divScalar,
    addList, subList, initStep, presenceUpdate, emaStep, pySlice, sliceBound,
    npMax, oneWindow]
  norm_num [Int.fdiv]
  simp
  norm_num

/-! ### Claim C3 -/

/-- C3: in every successful update `fast_avg` is updated exactly once,
with the fixed coefficient `alpha_fast` (`0.6` as constructed) — never
an adaptive one — and the peeking decision thresholds the differential
between that post-update `fast_avg` and the post-update
`slow_peek_avg` of the same frame. -/
theorem C3_fast_avg_once_fixed (w : Int → List ℚ) (n c : Int) (fft : FFTFun)
    (s : PresenceAntiPeekingAlgo) (mat R : List (List ℚ)) (p k : Bool)
    (s2 : PresenceAntiPeekingAlgo)
    (hf : fft mat s.range_window = .ok R)
    (hok : presence fft s mat = .ok (p, k, s2)) :
    (initAlgo w n c).alpha_fast = 6/10 ∧
    s2.fast_avg = some (emaStep s.alpha_fast
      ((initStep s (fftNormOf s R)).fast_avg.getD []) (fftNormOf s R)) ∧
    (∃ mp, npMax (pySlice
        (subList (s2.fast_avg.getD []) (s2.slow_peek_avg.getD []))
        s.peek_start_sample s.peek_end_sample) = some mp ∧
      k = decide (mp > s.threshold_peeking)) := by
  obtain ⟨slowA, fastA, peekA, m, mp, h1, h2, h3, hm, hp, hmp, hk, hs_slow,
    hs_fast, hs_peek, hs_ps, hs_ks, hs_fr, hd1, hd2, hd3, hd4, ht1, ht2⟩ :=
    presence_ok fft s mat R p k s2 hf hok
  refine ⟨rfl, ?_, mp, ?_, hk⟩
  · rw [hs_fast, h2]
    rfl
  · rw [hs_fast, hs_peek]
    exact hmp

/-- C3 witness: the general theorem applied to a concrete first-frame
run. -/
theorem C3_fast_avg_once_fixed_witness :
    presence fftId (initAlgo oneWindow 8 2) [[0, 0, 0, 0, 0, 0, 1, 0]] =
      .ok (false, false, out8) ∧
    (initAlgo oneWindow 8 2).alpha_fast = 6/10 :=
  ⟨presence_run8,
    (C3_fast_avg_once_fixed oneWindow 8 2 fftId (initAlgo oneWindow 8 2)
      [[0, 0, 0, 0, 0, 0, 1, 0]] [[0, 0, 0, 0, 0, 0, 1, 0]] false false out8
      rfl presence_run8).1⟩

/-! ### Claim C4 -/

/-- C4: in every successful update the coefficient for `slow_avg` is
`alpha_med` when the pre-update `presence_status` is false and
`alpha_slow` when it is true; the coefficient for `slow_peek_avg`
likewise follows the pre-update `peeking_status`; each average is
committed as `avg*(1-coef) + fft_norm*coef` element-wise (constructed
values `alpha_med = 0.05`, `alpha_slow = 0.001`). -/
theorem C4_adaptive_coefficients (w : Int → List ℚ) (n c : Int)
    (fft : FFTFun) (s : PresenceAntiPeekingAlgo) (mat R : List (List ℚ))
    (p k : Bool) (s2 : PresenceAntiPeekingAlgo)
    (hf : fft mat s.range_window = .ok R)
    (hok : presence fft s mat = .ok (p, k, s2)) :
    (initAlgo w n c).alpha_med = 5/100 ∧
    (initAlgo w n c).alpha_slow = 1/1000 ∧
    s2.slow_avg = some (emaStep
      (if s.presence_status then s.alpha_slow else s.alpha_med)
      ((initStep s (fftNormOf s R)).slow_avg.getD []) (fftNormOf s R)) ∧
    s2.slow_peek_avg = some (emaStep
      (if s.peeking_status then s.alpha_slow else s.alpha_med)
      ((initStep s (fftNormOf s R)).slow_peek_avg.getD []) (fftNormOf s R)) ∧
    (∀ coef a f, emaStep coef a f =
      List.zipWith (fun x y => x * (1 - coef) + y * coef) a f) := by
  obtain ⟨slowA, fastA, peekA, m, mp, h1, h2, h3, hm, hp, hmp, hk, hs_slow,
    hs_fast, hs_peek, hs_ps, hs_ks, hs_fr, hd1, hd2, hd3, hd4, ht1, ht2⟩ :=
    presence_ok fft s mat R p k s2 hf hok
  refine ⟨rfl, rfl, ?_, ?_, emaStep_eq_zipWith⟩
  · rw [hs_slow, h1]
    rfl
  · rw [hs_peek, h3]
    rfl

/-- C4 witness: the general theorem applied to a concrete run. -/
theorem C4_adaptive_coefficients_witness :
    presence fftId (initAlgo oneWindow 8 2) [[0, 0, 0, 0, 0, 0, 1, 0]] =
      .ok (false, false, out8) ∧
    (initAlgo oneWindow 8 2).alpha_med = 5/100 :=
  ⟨presence_run8,
    (C4_adaptive_coefficients oneWindow 8 2 fftId (initAlgo oneWindow 8 2)
      [[0, 0, 0, 0, 0, 0, 1, 0]] [[0, 0, 0, 0, 0, 0, 1, 0]] false false out8
      rfl presence_run8).1⟩

/-! ### Claim C5 -/

/-- C5: construction fixes the detect window to `[n//8, n//2)` and the
peek window to `[n//2, n)` by floor division — for `n = 256` the
windows are `[32, 128)` and `[128, 256)` — and every successful update
thresholds `presence` only over the detect-window slice of the
differential and `peeking` only over the peek-window slice. -/
theorem C5_window_boundaries (w : Int → List ℚ) (n c : Int) (fft : FFTFun)
    (s : PresenceAntiPeekingAlgo) (mat R : List (List ℚ)) (p k : Bool)
    (s2 : PresenceAntiPeekingAlgo)
    (hf : fft mat s.range_window = .ok R)
    (hok : presence fft s mat = .ok (p, k, s2)) :
    ((initAlgo w n c).detect_start_sample = Int.fdiv n 8 ∧
     (initAlgo w n c).detect_end_sample = Int.fdiv n 2 ∧
     (initAlgo w n c).peek_start_sample = Int.fdiv n 2 ∧
     (initAlgo w n c).peek_end_sample = n) ∧
    ((initAlgo w 256 c).detect_start_sample = 32 ∧
     (initAlgo w 256 c).detect_end_sample = 128 ∧
     (initAlgo w 256 c).peek_start_sample = 128 ∧
     (initAlgo w 256 c).peek_end_sample = 256) ∧
    (∃ m, npMax (pySlice (subList (s2.fast_avg.getD []) (s2.slow_avg.getD []))
        s.detect_start_sample s.detect_end_sample) = some m ∧
      p = decide (m > s.threshold_presence)) ∧
    (∃ mp, npMax (pySlice
        (subList (s2.fast_avg.getD []) (s2.slow_peek_avg.getD []))
        s.peek_start_sample s.peek_end_sample) = some mp ∧
      k = decide (mp > s.threshold_peeking)) := by
  obtain ⟨slowA, fastA, peekA, m, mp, h1, h2, h3, hm, hp, hmp, hk, hs_slow,
    hs_fast, hs_peek, hs_ps, hs_ks, hs_fr, hd1, hd2, hd3, hd4, ht1, ht2⟩ :=
    presence_ok fft s mat R p k s2 hf hok
  refine ⟨⟨rfl, rfl, rfl, rfl⟩, ⟨rfl, rfl, rfl, rfl⟩, ⟨m, ?_, hp⟩, ⟨mp, ?_, hk⟩⟩
  · rw [hs_fast, hs_slow]
    exact hm
  · rw [hs_fast, hs_peek]
    exact hmp

/-- C5 witness: the general theorem applied to a concrete run. -/
theorem C5_window_boundaries_witness :
    presence fftId (initAlgo oneWindow 8 2) [[0, 0, 0, 0, 0, 0, 1, 0]] =
      .ok (false, false, out8) ∧
    (initAlgo oneWindow 256 2).detect_start_sample = 32 :=
  ⟨presence_run8,
    (C5_window_boundaries oneWindow 8 2 fftId (initAlgo oneWindow 8 2)
      [[0, 0, 0, 0, 0, 0, 1, 0]] [[0, 0, 0, 0, 0, 0, 1, 0]] false false out8
      rfl presence_run8).2.1.1⟩

/-! ### Claim C7 -/

/-- C7: both threshold comparisons are strict: in every successful
update, a detect-window maximum equal to `threshold_presence`
(constructed value `0.0007`) yields `presence = false` and a strictly
greater one yields `true`; the peeking decision compares strictly
against `threshold_peeking` (constructed value `0.0006`) in the same
way. -/
theorem C7_strict_thresholds (w : Int → List ℚ) (n c : Int) (fft : FFTFun)
    (s : PresenceAntiPeekingAlgo) (mat R : List (List ℚ)) (p k : Bool)
    (s2 : PresenceAntiPeekingAlgo)
    (hf : fft mat s.range_window = .ok R)
    (hok : presence fft s mat = .ok (p, k, s2)) :
    (initAlgo w n c).threshold_presence = 7/10000 ∧
    (initAlgo w n c).threshold_peeking = 6/10000 ∧
    (∀ q, npMax (pySlice (subList (s2.fast_avg.getD []) (s2.slow_avg.getD []))
        s.detect_start_sample s.detect_end_sample) = some q →
      (q = s.threshold_presence → p = false) ∧
      (s.threshold_presence < q → p = true)) ∧
    (∀ q, npMax (pySlice
        (subList (s2.fast_avg.getD []) (s2.slow_peek_avg.getD []))
        s.peek_start_sample s.peek_end_sample) = some q →
      (q = s.threshold_peeking → k = false) ∧
      (s.threshold_peeking < q → k = true)) := by
  obtain ⟨slowA, fastA, peekA, m, mp, h1, h2, h3, hm, hp, hmp, hk, hs_slow,
    hs_fast, hs_peek, hs_ps, hs_ks, hs_fr, hd1, hd2, hd3, hd4, ht1, ht2⟩ :=
    presence_ok fft s mat R p k s2 hf hok
  refine ⟨rfl, rfl, ?_, ?_⟩
  · intro q hq
    rw [hs_fast, hs_slow] at hq
    have hqm : q = m := Option.some.inj ((hq.symm.trans hm))
    subst hqm
    constructor
    · intro he
      rw [hp, he]
      simp
    · intro hlt
      rw [hp]
      simpa using hlt
  · intro q hq
    rw [hs_fast, hs_peek] at hq
    have hqm : q = mp := Option.some.inj ((hq.symm.trans hmp))
    subst hqm
    constructor
    · intro he
      rw [hk, he]
      simp
    · intro hlt
      rw [hk]
      simpa using hlt

/-- State used to exercise the exact-threshold boundary: an initialized
detector two frames in, whose fast average will land exactly on the
presence threshold. -/
def sBoundary : PresenceAntiPeekingAlgo :=
  { initAlgo oneWindow 2 1 with
      first_run := false,
      slow_avg := some [0, 0],
      fast_avg := some [7/4000, 0],
      slow_peek_avg := some [0, 0] }

/-- Committed state of the boundary run. -/
def outBoundary : PresenceAntiPeekingAlgo :=
  { sBoundary with fast_avg := some [7/10000, 0] }

/-- Helper that returns an all-zero spectrum for the boundary run. -/
def fftZero2 : FFTFun := fun _ _ => .ok [[0, 0]]

theorem presence_runBoundary :
    presence fftZero2 sBoundary [[9, 9]] = .ok (false, false, outBoundary) := by
  simp only [presence, fftZero2, sBoundary, outBoundary, initAlgo, fftNormOf,
    colSum, divScalar, addList, subList, initStep, presenceUpdate, emaStep,
    pySlice, sliceBound, npMax, oneWindow]
  norm_num [Int.fdiv]
  simp
  norm_num

/-- C7 witness: on the boundary run the detect-window maximum equals
`threshold_presence` exactly and the update reports `presence = false`. -/
theorem C7_strict_thresholds_witness :
    presence fftZero2 sBoundary [[9, 9]] = .ok (false, false, outBoundary) ∧
    npMax (pySlice
        (subList (outBoundary.fast_avg.getD []) (outBoundary.slow_avg.getD []))
        sBoundary.detect_start_sample sBoundary.detect_end_sample) =
      some (7/10000) ∧
    (false : Bool) = false := by
  have hq : npMax (pySlice
      (subList (outBoundary.fast_avg.getD []) (outBoundary.slow_avg.getD []))
      sBoundary.detect_start_sample sBoundary.detect_end_sample) =
      some (7/10000) := by
    simp only [outBoundary, sBoundary, initAlgo, subList, pySlice, sliceBound,
      npMax, Option.getD_some]
    norm_num [Int.fdiv]
  exact ⟨presence_runBoundary, hq,
    ((C7_strict_thresholds oneWindow 2 1 fftZero2 sBoundary [[9, 9]] [[0, 0]]
      false false outBoundary rfl presence_runBoundary).2.2.1 (7/10000) hq).1 rfl⟩

/-! ### Claim C6 -/

theorem addList_replicate_zero (n : Nat) :
    addList (List.replicate n (0:ℚ)) (List.replicate n 0) = List.replicate n 0 := by
  rw [addList, zipWith_replicate_same]
  norm_num

theorem colSum_replicate_zero (r n : Nat) (hr : 0 < r) :
    colSum (List.replicate r (List.replicate n (0:ℚ))) = List.replicate n 0 := by
  obtain ⟨j, rfl⟩ : ∃ j, r = j + 1 := ⟨r - 1, by omega⟩
  rw [List.replicate_succ]
  show (List.replicate j (List.replicate n (0:ℚ))).foldl addList
    (List.replicate n 0) = List.replicate n 0
  clear hr
  induction j with
  | zero => rfl
  | succ i ih =>
      rw [List.replicate_succ, List.foldl_cons, addList_replicate_zero]
      exact ih

theorem subList_replicate_zero (n : Nat) :
    subList (List.replicate n (0:ℚ)) (List.replicate n 0) = List.replicate n 0 := by
  rw [subList, zipWith_replicate_same]
  norm_num

theorem sliceBound_natCast (L q : Nat) : sliceBound L (q : Int) = min q L := by
  unfold sliceBound
  split <;> omega

theorem pySlice_replicate_zero (nn : Nat) (a b : Int) :
    pySlice (List.replicate nn (0:ℚ)) a b =
      List.replicate (min (sliceBound nn b) nn - sliceBound nn a) 0 := by
  unfold pySlice
  rw [List.length_replicate, List.take_replicate, List.drop_replicate]

theorem npMax_replicate_zero_pos (K : Nat) (hK : 0 < K) :
    npMax (List.replicate K (0:ℚ)) = some 0 := by
  obtain ⟨j, rfl⟩ : ∃ j, K = j + 1 := ⟨K - 1, by omega⟩
  exact npMax_replicate_succ j 0

theorem fdiv_natCast_eight (m : ℕ) :
    Int.fdiv (m : Int) 8 = ((m / 8 : ℕ) : Int) := by
  rw [show (8 : Int) = ((8 : ℕ) : Int) from rfl]
  exact (Int.ofNat_fdiv m 8).symm

theorem fdiv_natCast_two (m : ℕ) :
    Int.fdiv (m : Int) 2 = ((m / 2 : ℕ) : Int) := by
  rw [show (2 : Int) = ((2 : ℕ) : Int) from rfl]
  exact (Int.ofNat_fdiv m 2).symm

theorem fftNormOf_zero (s : PresenceAntiPeekingAlgo) (r n : Nat) (hr : 0 < r) :
    fftNormOf s (List.replicate r (List.replicate n (0:ℚ))) =
      List.replicate n 0 := by
  unfold fftNormOf
  rw [List.map_replicate, List.map_replicate, abs_zero,
    colSum_replicate_zero r n hr]
  unfold divScalar
  rw [List.map_replicate]
  norm_num

theorem presence_first_zero (w : Int → List ℚ) (n : ℕ) (c : Int) (fft : FFTFun)
    (mat : List (List ℚ)) (r : ℕ) (hr : 0 < r) (hn : 2 ≤ n)
    (hz : fft mat (initAlgo w (n : Int) c).range_window =
      .ok (List.replicate r (List.replicate n (0:ℚ)))) :
    presence fft (initAlgo w (n : Int) c) mat =
      .ok (false, false,
        { initAlgo w (n : Int) c with
            first_run := false, presence_status := false,
            peeking_status := false,
            slow_avg := some (List.replicate n (0:ℚ)),
            fast_avg := some (List.replicate n (0:ℚ)),
            slow_peek_avg := some (List.replicate n (0:ℚ)) }) := by
  rw [presence_fft_ok fft _ mat _ hz, fftNormOf_zero _ r n hr]
  rw [initStep_of_first_run _ _ rfl]
  show presenceUpdate
    { initAlgo w (n : Int) c with
        slow_avg := some (List.replicate n (0:ℚ)),
        fast_avg := some (List.replicate n (0:ℚ)),
        slow_peek_avg := some (List.replicate n (0:ℚ)), first_run := false }
    (List.replicate n 0) (List.replicate n 0) (List.replicate n 0)
    (List.replicate n 0) = _
  simp only [presenceUpdate, initAlgo, emaStep_self, subList_replicate_zero,
    pySlice_replicate_zero, fdiv_natCast_eight, fdiv_natCast_two,
    sliceBound_natCast]
  rw [npMax_replicate_zero_pos _ (by omega), npMax_replicate_zero_pos _ (by omega)]
  norm_num

/-- C6: on the first processed frame the update sets all three running
averages to `fft_norm`, marks the state initialized, and still runs the
averaging and threshold steps; in particular, when the spectrum of the
first frame is all-zero (as the FFT contract yields for an all-zero
frame), the returned pair is `(false, false)`. -/
theorem C6_first_frame (fft : FFTFun) (s : PresenceAntiPeekingAlgo)
    (mat R : List (List ℚ)) (p k : Bool) (s2 : PresenceAntiPeekingAlgo)
    (w : Int → List ℚ) (n : ℕ) (c : Int) (fftz : FFTFun)
    (matz : List (List ℚ)) (r : ℕ)
    (hfr : s.first_run = true)
    (hf : fft mat s.range_window = .ok R)
    (hok : presence fft s mat = .ok (p, k, s2))
    (hr : 0 < r) (hn : 2 ≤ n)
    (hz : fftz matz (initAlgo w (n : Int) c).range_window =
      .ok (List.replicate r (List.replicate n (0:ℚ)))) :
    (s2.first_run = false ∧
     s2.slow_avg = some (fftNormOf s R) ∧
     s2.fast_avg = some (fftNormOf s R) ∧
     s2.slow_peek_avg = some (fftNormOf s R)) ∧
    presence fftz (initAlgo w (n : Int) c) matz =
      .ok (false, false,
        { initAlgo w (n : Int) c with
            first_run := false, presence_status := false,
            peeking_status := false,
            slow_avg := some (List.replicate n (0:ℚ)),
            fast_avg := some (List.replicate n (0:ℚ)),
            slow_peek_avg := some (List.replicate n (0:ℚ)) }) := by
  refine ⟨?_, presence_first_zero w n c fftz matz r hr hn hz⟩
  obtain ⟨slowA, fastA, peekA, m, mp, h1, h2, h3, hm, hp, hmp, hk, hs_slow,
    hs_fast, hs_peek, hs_ps, hs_ks, hs_fr, hd1, hd2, hd3, hd4, ht1, ht2⟩ :=
    presence_ok fft s mat R p k s2 hf hok
  rw [initStep_of_first_run s (fftNormOf s R) hfr] at h1 h2 h3
  have hA : slowA = fftNormOf s R :=
    (Option.some.inj (h1 : some (fftNormOf s R) = some slowA)).symm
  have hB : fastA = fftNormOf s R :=
    (Option.some.inj (h2 : some (fftNormOf s R) = some fastA)).symm
  have hC : peekA = fftNormOf s R :=
    (Option.some.inj (h3 : some (fftNormOf s R) = some peekA)).symm
  subst hA hB hC
  rw [emaStep_self] at hs_slow hs_fast hs_peek
  exact ⟨hs_fr, hs_slow, hs_fast, hs_peek⟩

/-- Helper returning an all-zero one-row spectrum, for the C6 witness. -/
def fftZero8 : FFTFun :=
  fun _ _ => .ok [List.replicate 8 (0:ℚ)]

/-- Committed state of the concrete all-zero first frame. -/
def outZero8 : PresenceAntiPeekingAlgo :=
  { initAlgo oneWindow 8 2 with
      first_run := false,
      slow_avg := some (List.replicate 8 0),
      fast_avg := some (List.replicate 8 0),
      slow_peek_avg := some (List.replicate 8 0) }

theorem presence_runZero8 :
    presence fftZero8 (initAlgo oneWindow 8 2) [[1]] =
      .ok (false, false, outZero8) := by
  simp only [presence, fftZero8, initAlgo, outZero8, fftNormOf, colSum,
    divScalar, addList, subList, initStep, presenceUpdate, emaStep, pySlice,
    sliceBound, npMax, oneWindow, List.replicate]
  norm_num [Int.fdiv]
  simp
  norm_num

/-- C6 witness: the theorem applied to a concrete all-zero first frame. -/
theorem C6_first_frame_witness :
    presence fftZero8 (initAlgo oneWindow 8 2) [[1]] =
      .ok (false, false, outZero8) ∧
    outZero8.first_run = false :=
  ⟨presence_runZero8,
    (C6_first_frame fftZero8 (initAlgo oneWindow 8 2) [[1]]
      (List.replicate 1 (List.replicate 8 0)) false false outZero8
      oneWindow 8 2 fftZero8 [[1]] 1 rfl rfl presence_runZero8
      (by omega) (by omega) rfl).1.1⟩

/-! ### Claim C10 -/

theorem presenceUpdate_peekObs (u : PresenceAntiPeekingAlgo) (b1 b2 : Bool)
    (slowA fastA peekA fn : List ℚ) :
    peekObs (presenceUpdate { u with presence_status := b1 } slowA fastA peekA fn) =
    peekObs (presenceUpdate { u with presence_status := b2 } slowA fastA peekA fn) := by
  simp only [presenceUpdate]
  set F := emaStep u.alpha_fast fastA fn with hF
  set S1 := emaStep (if b1 = true then u.alpha_slow else u.alpha_med) slowA fn with hS1
  set S2 := emaStep (if b2 = true then u.alpha_slow else u.alpha_med) slowA fn with hS2
  have hlen : (pySlice (subList F S1) u.detect_start_sample u.detect_end_sample).length
      = (pySlice (subList F S2) u.detect_start_sample u.detect_end_sample).length := by
    apply pySlice_length_eq
    simp [length_subList, hS1, hS2, length_emaStep]
  rcases h1 : npMax (pySlice (subList F S1) u.detect_start_sample u.detect_end_sample)
    with _ | m1
  · have h2 : npMax (pySlice (subList F S2) u.detect_start_sample u.detect_end_sample)
        = none := by
      rw [npMax_eq_none_iff] at h1 ⊢
      rw [← List.length_eq_zero, ← hlen, h1]
      rfl
    rw [h2]
    rfl
  · have h2 : ∃ m2, npMax (pySlice (subList F S2) u.detect_start_sample u.detect_end_sample)
        = some m2 := by
      rcases hh : npMax (pySlice (subList F S2) u.detect_start_sample u.detect_end_sample)
        with _ | m2
      · exfalso
        rw [npMax_eq_none_iff] at hh
        have hnil : pySlice (subList F S1) u.detect_start_sample u.detect_end_sample = [] := by
          rw [← List.length_eq_zero, hlen, hh]
          rfl
        rw [hnil] at h1
        simp [npMax] at h1
      · exact ⟨m2, rfl⟩
    obtain ⟨m2, hm2⟩ := h2
    rw [hm2]
    rcases hq : npMax (pySlice (subList F (emaStep
        (if u.peeking_status = true then u.alpha_slow else u.alpha_med) peekA fn))
        u.peek_start_sample u.peek_end_sample) with _ | mq <;> rfl

/-- C10: the peeking half of a single update is independent of
`presence_status`: for two states identical except for that flag,
processing the same frame yields the same peeking boolean and the same
committed `slow_peek_avg` (and the update fails on one iff it fails on
the other), because `fast_avg` always uses the fixed `alpha_fast` and
the peeking coefficient depends only on `peeking_status`. -/
theorem C10_peeking_independent (fft : FFTFun) (mat : List (List ℚ))
    (s : PresenceAntiPeekingAlgo) (b1 b2 : Bool) :
    peekObs (presence fft { s with presence_status := b1 } mat) =
    peekObs (presence fft { s with presence_status := b2 } mat) := by
  rcases hf : fft mat s.range_window with e | R
  · rw [presence_fft_error fft { s with presence_status := b1 } mat e hf,
       presence_fft_error fft { s with presence_status := b2 } mat e hf]
    rfl
  · rw [presence_fft_ok fft { s with presence_status := b1 } mat R hf,
       presence_fft_ok fft { s with presence_status := b2 } mat R hf]
    have hfn : ∀ b : Bool, fftNormOf { s with presence_status := b } R = fftNormOf s R :=
      fun _ => rfl
    rw [hfn b1, hfn b2]
    cases hsf : s.first_run
    · rw [initStep_of_not_first_run
        { s with presence_status := b1, first_run := false } (fftNormOf s R) rfl,
        initStep_of_not_first_run
        { s with presence_status := b2, first_run := false } (fftNormOf s R) rfl]
      dsimp only
      rcases h1 : s.slow_avg with _ | slowA
      · rfl
      rcases h2 : s.fast_avg with _ | fastA
      · rfl
      rcases h3 : s.slow_peek_avg with _ | peekA
      · rfl
      exact presenceUpdate_peekObs
        { s with first_run := false, slow_avg := some slowA,
                 fast_avg := some fastA, slow_peek_avg := some peekA }
        b1 b2 slowA fastA peekA (fftNormOf s R)
    · rw [initStep_of_first_run
        { s with presence_status := b1, first_run := true } (fftNormOf s R) rfl,
        initStep_of_first_run
        { s with presence_status := b2, first_run := true } (fftNormOf s R) rfl]
      exact presenceUpdate_peekObs
        { s with slow_avg := some (fftNormOf s R), fast_avg := some (fftNormOf s R),
                 slow_peek_avg := some (fftNormOf s R), first_run := false }
        b1 b2 (fftNormOf s R) (fftNormOf s R) (fftNormOf s R) (fftNormOf s R)
